import Mathlib

/-!
Shallow embedding of `src/shell.py`, a small POSIX-like shell: its lexer
(`tokenize`), pipeline parser (`parse_pipeline`), executable resolution
(`find_executable`), pipeline executor (`run_pipeline`) and the driver's
builtin dispatch (`main`, lines 250-262).  OS interaction (filesystem
checks, `fork`/`waitpid`) is abstracted into explicit parameters: a
predicate on paths for "regular file executable by the current process",
and a list of per-child wait outcomes for the executor.
-/

namespace Shell

/-! ## Lexer (shell.py lines 33-56)

The Python lexer repeatedly applies the regex
`\s*(?:(>>)|([^\s"']+)|"((?:\\.|[^"])+)"|'((?:\\.|[^'])+)')` at the
current position and stops at the first position where it fails to match.
We reproduce the regex's backtracking behaviour with explicit recursive
matchers over `List Char`.
-/

/-- The single-quote character, written via its code point. -/
def squote : Char := Char.ofNat 39

/-- The backslash character. -/
def bslash : Char := '\\'

/-- The double-quote character. -/
def dquote : Char := '"'

/-- ASCII whitespace as matched by the regex class `\s`. -/
def isSpace (c : Char) : Bool :=
  c == ' ' || c == '\t' || c == '\n' || c == '\r' ||
    c == Char.ofNat 11 || c == Char.ofNat 12

/-- Characters matched by the unquoted-token class `[^\s"']`. -/
def unquotedChar (c : Char) : Bool :=
  !(isSpace c) && c != dquote && c != squote

/-- Skip the `\s*` prefix of the token regex. -/
def dropWs (l : List Char) : List Char := l.dropWhile isSpace

/-- Match the quoted-span body-and-close `(?:\\.|[^q])* q`, returning the
body characters and the input remaining after the closing quote
(nonemptiness of the body, required by the regex's `+`, is checked by the
caller).  Mirrors the regex engine's ordered choice with backtracking: at
each position an escape element `\\.` is preferred (`.` does not match a
newline), then a plain `[^q]` element, and the quantifier is greedy, so
the match closes only at a position holding the quote `q`.  Every
recursive call strictly shortens the input, so a fuel of
`input length + 1` (supplied by `quotedBody`) can never be exhausted. -/
def quotedBodyAux : Nat → Char → List Char → Option (List Char × List Char)
  | 0, _, _ => none
  | _ + 1, _, [] => none
  | fuel + 1, q, c :: rest =>
    if c = bslash then
      match rest with
      | [] => none
      | d :: rest2 =>
        if d ≠ '\n' then
          match quotedBodyAux fuel q rest2 with
          | some (b, r) => some (c :: d :: b, r)
          | none =>
            match quotedBodyAux fuel q rest with
            | some (b, r) => some (c :: b, r)
            | none => none
        else
          match quotedBodyAux fuel q rest with
          | some (b, r) => some (c :: b, r)
          | none => none
    else if c = q then
      some ([], rest)
    else
      match quotedBodyAux fuel q rest with
      | some (b, r) => some (c :: b, r)
      | none => none

/-- Entry point for the quoted-span matcher, with sufficient fuel. -/
def quotedBody (q : Char) (l : List Char) : Option (List Char × List Char) :=
  quotedBodyAux (l.length + 1) q l

/-- Python's `body.replace('\\' + q, q)`: replace every (non-overlapping,
leftmost-first) occurrence of backslash-`q` by `q`. -/
def unescape (q : Char) : List Char → List Char
  | [] => []
  | [c] => [c]
  | c :: d :: rest =>
    if c = bslash ∧ d = q then q :: unescape q rest
    else c :: unescape q (d :: rest)

/-- One application of the token regex after the `\s*` prefix has been
skipped: returns the produced token and the remaining input, or `none`
when no alternative matches at this position.  The four alternatives are
tried in the regex's order: the literal `>>`, a maximal run of
`[^\s"']`, a double-quoted span (with `\"` unescaped), and a
single-quoted span (with `\'` unescaped); empty quoted bodies do not
match. -/
def matchToken : List Char → Option (String × List Char)
  | [] => none
  | c :: rest =>
    if c = '>' ∧ rest.head? = some '>' then
      some (">>", rest.tail)
    else if unquotedChar c then
      some (String.mk ((c :: rest).takeWhile unquotedChar),
            (c :: rest).dropWhile unquotedChar)
    else if c = dquote then
      match quotedBody dquote rest with
      | some (b, r) =>
        if b = [] then none else some (String.mk (unescape dquote b), r)
      | none => none
    else if c = squote then
      match quotedBody squote rest with
      | some (b, r) =>
        if b = [] then none else some (String.mk (unescape squote b), r)
      | none => none
    else none

/-- The lexer loop: skip whitespace, match one token, repeat; stop (and
return the tokens produced so far) at the first position where the regex
fails to match.  Each successful match consumes at least one character,
so the Python `while pos < len(s)` loop performs at most `len(s)`
iterations; the fuel argument bounds the iteration count. -/
def tokenizeAux : Nat → List Char → List String
  | 0, _ => []
  | fuel + 1, l =>
    match matchToken (dropWs l) with
    | none => []
    | some (t, r) => t :: tokenizeAux fuel r

/-- Model of `tokenize` (shell.py lines 33-56). -/
def tokenize (s : String) : List String :=
  tokenizeAux (s.data.length + 1) s.data

/-! ## Parser (shell.py lines 61-115) -/

/-- One stage of a pipeline: the dict
`{'args': args, 'in': infile, 'out': outfile, 'append': outfile_append}`
built by `parse_pipeline`.  Field names follow the parser's local
variables (`in` is a Lean keyword). -/
structure Cmd where
  args : List String
  infile : Option String
  outfile : Option String
  outfile_append : Bool
deriving DecidableEq, Repr

/-- Split the token list into segments at every `|` token, consuming the
`|` tokens (shell.py lines 66-74): `cur` is the segment being
accumulated. -/
def splitSegsAux : List String → List String → List (List String)
  | cur, [] => [cur]
  | cur, t :: rest =>
    if t = "|" then cur :: splitSegsAux [] rest
    else splitSegsAux (cur ++ [t]) rest

/-- Segments of a token list, split at `|`. -/
def splitSegs (tokens : List String) : List (List String) :=
  splitSegsAux [] tokens

/-- The per-segment scan of shell.py lines 82-112: walk the segment left
to right carrying the accumulated `args`, `infile`, `outfile` and
`outfile_append`; a redirection operator consumes the following token
(if any) as its target, setting the target to `None` when the operator
is the last remaining token; every other token is appended to `args`.
Note that `>` sets `outfile` without touching `outfile_append`, and `>>`
sets `outfile_append` only when a target token follows. -/
def parseSegAux : List String → List String → Option String →
    Option String → Bool → Cmd
  | [], args, infile, outfile, app => ⟨args, infile, outfile, app⟩
  | tok :: rest, args, infile, outfile, app =>
    if tok = ">" then
      match rest with
      | [] => parseSegAux [] args infile none app
      | t :: rest2 => parseSegAux rest2 args infile (some t) app
    else if tok = ">>" then
      match rest with
      | [] => parseSegAux [] args infile none app
      | t :: rest2 => parseSegAux rest2 args infile (some t) true
    else if tok = "<" then
      match rest with
      | [] => parseSegAux [] args none outfile app
      | t :: rest2 => parseSegAux rest2 args (some t) outfile app
    else
      parseSegAux rest (args ++ [tok]) infile outfile app

/-- The command record scanned from one segment, starting from empty
`args` and unset redirections. -/
def parseSeg (seg : List String) : Cmd :=
  parseSegAux seg [] none none false

/-- Model of `parse_pipeline` (shell.py lines 61-115): tokenize, return
`[]` for an empty token list, otherwise split into segments at `|`,
scan each segment, and keep only the records with non-empty `args`. -/
def parse_pipeline (line : String) : List Cmd :=
  if tokenize line = [] then []
  else
    (splitSegs (tokenize line)).filterMap fun seg =>
      if (parseSeg seg).args = [] then none else some (parseSeg seg)

/-! ## Executable resolution (shell.py lines 17-28) -/

/-- Python's `os.path.join(d, name)` for the POSIX flavour: an absolute
`name` replaces `d`; otherwise `name` is appended to `d`, inserting a
`/` separator unless `d` is empty or already ends in `/`. -/
def pathJoin (d name : String) : String :=
  if name.data.head? = some '/' then name
  else if d = "" then name
  else if d.data.getLast? = some '/' then d ++ name
  else d ++ "/" ++ name

/-- Python's `s.split(sep)` for a single-character separator: note that
`''.split(':')` is `['']`, a list holding one empty entry. -/
def pySplit (sep : Char) : List Char → List Char → List String
  | cur, [] => [String.mk cur]
  | cur, c :: rest =>
    if c = sep then String.mk cur :: pySplit sep [] rest
    else pySplit sep (cur ++ [c]) rest

/-- The loop of shell.py lines 24-27: try each `PATH` entry in order and
return the first join that passes the executable check. -/
def searchPath (execOk : String → Bool) (cmd : String) :
    List String → Option String
  | [] => none
  | d :: ds =>
    let full := pathJoin d cmd
    if execOk full then some full else searchPath execOk cmd ds

/-- Model of `find_executable` (shell.py lines 17-28).  `execOk path`
abstracts `os.access(path, os.X_OK) and os.path.isfile(path)`, the
filesystem's answer for "regular file executable by the current
process"; `pathEnv` is `os.environ.get('PATH')`, with `none` for an
unset variable (the code substitutes `''`); `os.pathsep` is `:`. -/
def find_executable (execOk : String → Bool) (cmd : String)
    (pathEnv : Option String) : Option String :=
  if cmd.data.contains '/' then
    if execOk cmd then some cmd else none
  else
    searchPath execOk cmd (pySplit ':' [] (pathEnv.getD "").data)

/-! ## Executor (shell.py lines 121-218)

`run_pipeline` forks one child per stage and, in the foreground case,
waits for each child in spawn order.  The OS side of `waitpid` is
abstracted into a list of per-child outcomes in spawn order; the purely
parent-side observables kept by the model are the number of pipes
created, the number of children forked, and the returned status.
-/

/-- Outcome of one `os.waitpid(pid, 0)` call: the child exited normally
with the given code (`WIFEXITED`), it terminated some other way (for
example by signal), or the wait itself raised. -/
inductive WaitRes where
  | exited (code : Nat)
  | signaled
  | waitFailed
deriving DecidableEq, Repr

/-- The status recorded for one wait (shell.py lines 209-215): the exit
status when the child exited normally, and `1` otherwise (both for a
non-exited termination and for a failed wait). -/
def statusOfWait : WaitRes → Nat
  | .exited code => code
  | .signaled => 1
  | .waitFailed => 1

/-- Parent-side observables of one `run_pipeline` call. -/
structure RunResult where
  pipesCreated : Nat
  childrenSpawned : Nat
  status : Nat
deriving DecidableEq, Repr

/-- Model of `run_pipeline` (shell.py lines 121-218).  An empty pipeline
returns status 0 before any pipe or child is created (lines 122-124).
Otherwise `n - 1` pipes are created and `n` children forked; a
background run returns 0 without waiting (lines 203-205), and a
foreground run maps `statusOfWait` over the wait outcomes (one per
child, in spawn order) and returns the last entry, or 0 if none was
collected (lines 206-218). -/
def run_pipeline (cmds : List Cmd) (background : Bool)
    (waits : List WaitRes) : RunResult :=
  if cmds.length = 0 then ⟨0, 0, 0⟩
  else
    let status :=
      if background then 0
      else ((waits.map statusOfWait).getLast?).getD 0
    ⟨cmds.length - 1, cmds.length, status⟩

/-! ## Driver builtin dispatch (shell.py lines 246-264) -/

/-- What the driver decides to do with one parsed line. -/
inductive Action where
  | contin
  | exitShell
  | cdTo (target : String)
  | runPipe (cmds : List Cmd) (background : Bool)
deriving DecidableEq, Repr

/-- Model of the driver's post-parse dispatch (shell.py lines 246-264):
skip an empty parse; for a single-stage pipeline run the `exit` or `cd`
builtin chosen by `args[0]` alone (`cd`'s target is `args[1]` when
present, else `HOME`, else `/`); otherwise call the executor with the
pipeline and the background flag.  `none` models the uncaught
`IndexError` Python would raise on an empty `args` (unreachable for
parser output). -/
def dispatchParsed (cmds : List Cmd) (background : Bool)
    (home : Option String) : Option Action :=
  if cmds = [] then some Action.contin
  else
    match cmds with
    | [c] =>
      match c.args with
      | [] => none
      | a0 :: rest =>
        if a0 = "exit" then some Action.exitShell
        else if a0 = "cd" then
          some (Action.cdTo (rest.head?.getD (home.getD "/")))
        else some (Action.runPipe cmds background)
    | _ => some (Action.runPipe cmds background)

end Shell

section LexerChecks
open Shell

example : tokenize "a b c" = ["a", "b", "c"] := by decide
example : tokenize "" = [] := by decide
example : tokenize "   " = [] := by decide
example : tokenize "echo hi | wc -c" = ["echo", "hi", "|", "wc", "-c"] := by decide
example : tokenize "cat >>out" = ["cat", ">>", "out"] := by decide
example : tokenize "a>b" = ["a>b"] := by decide
example : tokenize "\"a b\"" = ["a b"] := by decide
example : tokenize "\"a\\\"b\"" = ["a\"b"] := by decide
example : tokenize "a \"unterminated" = ["a"] := by decide
example : tokenize "\"\"x" = [] := by decide
example : tokenize ">>>" = [">>", ">"] := by decide

example : parse_pipeline "echo hi | wc -c" =
    [⟨["echo", "hi"], none, none, false⟩, ⟨["wc", "-c"], none, none, false⟩] := by
  decide
example : parse_pipeline "cat < inp > out" =
    [⟨["cat"], some "inp", some "out", false⟩] := by decide
example : parse_pipeline "a >> f" = [⟨["a"], none, some "f", true⟩] := by decide
example : parse_pipeline "a >> f > g" = [⟨["a"], none, some "g", true⟩] := by
  decide
example : parse_pipeline "a > f < >" =
    [⟨["a"], some ">", some "f", false⟩] := by decide
example : parse_pipeline "> f" = [] := by decide
example : parse_pipeline "" = [] := by decide
example : parse_pipeline "a |" = [⟨["a"], none, none, false⟩] := by decide

example : find_executable (fun s => s == "prog") "prog" none = some "prog" := by
  decide
example : find_executable (fun s => s == "/bin/ls") "ls" (some ":/bin") =
    some "/bin/ls" := by decide
example : find_executable (fun _ => false) "ls" (some "/bin:/usr/bin") =
    none := by decide
example : find_executable (fun s => s == "/bin/ls") "/bin/ls" none =
    some "/bin/ls" := by decide

example : run_pipeline [] true [] = ⟨0, 0, 0⟩ := by decide
example : run_pipeline [⟨["a"], none, none, false⟩, ⟨["b"], none, none, false⟩]
    false [.exited 0, .exited 3] = ⟨1, 2, 3⟩ := by decide
example : run_pipeline [⟨["a"], none, none, false⟩] true [] = ⟨0, 1, 0⟩ := by
  decide

example : dispatchParsed (parse_pipeline "exit > f") true none =
    some Action.exitShell := by decide
example : dispatchParsed (parse_pipeline "cd /tmp") false none =
    some (Action.cdTo "/tmp") := by decide
example : dispatchParsed (parse_pipeline "cd") false (some "/home/u") =
    some (Action.cdTo "/home/u") := by decide
example : dispatchParsed (parse_pipeline "cd") false none =
    some (Action.cdTo "/") := by decide

end LexerChecks

namespace Shell

/-! ## Helper lemmas -/

/-- When the token regex fails to match at the start of the input, the
lexer produces nothing. -/
theorem tokenize_stops (s : String) (h : matchToken (dropWs s.data) = none) :
    tokenize s = [] := by
  simp [tokenize, tokenizeAux, h]

/-- Mapping commutes with taking the last element of a list. -/
theorem getLast?_map (f : α → β) :
    ∀ l : List α, (l.map f).getLast? = (l.getLast?).map f
  | [] => rfl
  | [_] => rfl
  | a :: b :: l => by
    rw [List.map_cons, List.map_cons, List.getLast?_cons_cons,
      List.getLast?_cons_cons, ← List.map_cons, getLast?_map f (b :: l)]

/-- A name free of `/` does not start with `/`. -/
theorem head_ne_slash {cmd : String} (h : cmd.data.contains '/' = false) :
    cmd.data.head? ≠ some '/' := by
  intro hh
  cases hd : cmd.data with
  | nil => rw [hd] at hh; exact Option.noConfusion hh
  | cons c l =>
    rw [hd] at hh
    have hc : c = '/' := by simpa using hh
    rw [hd, hc] at h
    simp [List.contains_cons] at h

/-! ## Claim theorems -/

/-- C3 counterexample: on the line `a >> f > g` the later `>` overwrites
the path but leaves `stdout_append` set by the earlier `>>`, so the
resulting record has `outfile_append = true`, not `false` as the claim
states. -/
theorem trunc_after_append_counterexample :
    parse_pipeline "a >> f > g" = [⟨["a"], none, some "g", true⟩] := by
  decide

/-- C3 amended: processing a `>` operator with a following target token
sets `outfile` to that token, overwriting any earlier redirection's
path, and leaves `args`, `infile` and `outfile_append` unchanged; in
particular a `>` after a `>>` yields the `>`'s path with the append
flag still set. -/
theorem trunc_keeps_append_overwrites_path :
    (∀ (rest args : List String) (infile outfile : Option String)
        (app : Bool) (g : String),
      parseSegAux (">" :: g :: rest) args infile outfile app =
        parseSegAux rest args infile (some g) app) ∧
    (∀ (args : List String) (infile outfile : Option String) (app : Bool)
        (f g : String),
      parseSegAux [">>", f, ">", g] args infile outfile app =
        ⟨args, infile, some g, true⟩) :=
  ⟨fun _ _ _ _ _ _ => rfl, fun _ _ _ _ _ _ => rfl⟩

/-- C4: every command record produced by `parse_pipeline` has a
non-empty `args` list (the parser drops records with empty `args`), and
the parser is a total function. -/
theorem parse_pipeline_args_nonempty (line : String) (c : Cmd)
    (h : c ∈ parse_pipeline line) : c.args ≠ [] := by
  unfold parse_pipeline at h
  by_cases ht : tokenize line = []
  · rw [if_pos ht] at h
    exact absurd h (List.not_mem_nil c)
  · rw [if_neg ht] at h
    rcases List.mem_filterMap.mp h with ⟨seg, _, hf⟩
    by_cases ha : (parseSeg seg).args = []
    · rw [if_pos ha] at hf
      exact Option.noConfusion hf
    · rw [if_neg ha] at hf
      injection hf with hf
      rw [← hf]
      exact ha

/-- C4 witness: the record parsed from the line `a` is in the output and
has non-empty `args`. -/
theorem parse_pipeline_args_nonempty_witness :
    (⟨["a"], none, none, false⟩ : Cmd) ∈ parse_pipeline "a" ∧
      (Cmd.args ⟨["a"], none, none, false⟩ ≠ []) :=
  ⟨by decide, parse_pipeline_args_nonempty "a" _ (by decide)⟩

/-- C5 counterexample: in the segment `a > f < >` the last token is the
redirection operator `>`, yet the produced record's `outfile` is
`some "f"` (the trailing `>` was consumed as the target of `<`), so an
output redirection is applied even though the segment ends in `>`. -/
theorem trailing_op_consumed_as_target_counterexample :
    (tokenize "a > f < >").getLast? = some ">" ∧
      parse_pipeline "a > f < >" = [⟨["a"], some ">", some "f", false⟩] := by
  decide

/-- C5 amended: when the left-to-right scan reaches a redirection
operator as its final remaining token (rather than consuming it as the
target of an earlier operator), the operator is consumed without error
and the corresponding path field is set to `none` in the produced
record, so no redirection is applied for it. -/
theorem trailing_redirection_target_unset
    (args : List String) (infile outfile : Option String) (app : Bool) :
    parseSegAux [">"] args infile outfile app = ⟨args, infile, none, app⟩ ∧
    parseSegAux [">>"] args infile outfile app = ⟨args, infile, none, app⟩ ∧
    parseSegAux ["<"] args infile outfile app = ⟨args, none, outfile, app⟩ :=
  ⟨rfl, rfl, rfl⟩

/-- C6: the lexer stops at the first position where the token regex
fails to match, returning the tokens produced so far; in particular an
unterminated double or single quote truncates the token stream, and all
text from the unterminated quote onward yields no tokens. -/
theorem tokenize_truncates_at_first_failure :
    (∀ s : String, matchToken (dropWs s.data) = none → tokenize s = []) ∧
    tokenize "a b \"unterminated tail" = ["a", "b"] ∧
    tokenize ("x " ++ String.mk [squote] ++ "oops y z") = ["x"] :=
  ⟨fun s h => tokenize_stops s h, by decide, by decide⟩

/-- C6 witness: an input that is one unterminated quote produces no
match and hence no tokens. -/
theorem tokenize_truncates_at_first_failure_witness :
    tokenize "\"abc" = [] :=
  tokenize_truncates_at_first_failure.1 "\"abc" (by decide)

/-- C7: an input consisting only of whitespace characters (including
the empty string) lexes to the empty token sequence. -/
theorem tokenize_all_whitespace (s : String)
    (h : ∀ c ∈ s.data, isSpace c = true) : tokenize s = [] := by
  apply tokenize_stops
  have hd : dropWs s.data = [] := List.dropWhile_eq_nil_iff.mpr h
  rw [hd]
  rfl

/-- C7 witness: a concrete all-whitespace input lexes to nothing. -/
theorem tokenize_all_whitespace_witness :
    (∀ c ∈ ("  \t ").data, isSpace c = true) ∧ tokenize "  \t " = [] :=
  ⟨by decide, tokenize_all_whitespace "  \t " (by decide)⟩

/-- C9: quoting does not protect operator characters from the parser: a
quoted `|` lexes to the same bare token as an unquoted one, so
`a "|" b` parses exactly like `a | b` (two single-word commands), and a
quoted `>` acts as an output redirection operator. -/
theorem quoting_does_not_protect_operators :
    parse_pipeline "a \"|\" b" = parse_pipeline "a | b" ∧
    parse_pipeline "a | b" =
      [⟨["a"], none, none, false⟩, ⟨["b"], none, none, false⟩] ∧
    parse_pipeline "a \">\" f" = [⟨["a"], none, some "f", false⟩] := by
  decide

/-- C1 counterexample: for a one-stage foreground pipeline whose stage
terminates by signal (or whose wait fails), `run_pipeline` returns
status 1, not 0 as the claim states. -/
theorem run_pipeline_signal_status_counterexample :
    (run_pipeline [⟨["sleep"], none, none, false⟩] false
        [WaitRes.signaled]).status = 1 ∧
    (run_pipeline [⟨["sleep"], none, none, false⟩] false
        [WaitRes.waitFailed]).status = 1 := by
  decide

/-- C1 amended: for every non-empty pipeline executed in the foreground,
with one wait outcome per stage in spawn order, `run_pipeline` returns
the exit status of the last stage when it exited normally, and 1 (not 0)
when that stage terminated by signal or its wait failed. -/
theorem run_pipeline_foreground_last_status (cmds : List Cmd)
    (waits : List WaitRes) (w : WaitRes) (hne : cmds ≠ [])
    (_hlen : waits.length = cmds.length) (hlast : waits.getLast? = some w) :
    (run_pipeline cmds false waits).status = statusOfWait w := by
  have hn : ¬cmds.length = 0 := fun h0 => hne (List.length_eq_zero.mp h0)
  unfold run_pipeline
  rw [if_neg hn]
  simp only [Bool.false_eq_true, if_false]
  rw [getLast?_map, hlast]
  rfl

/-- C1 witness: a one-stage foreground pipeline whose stage exits with
code 7 yields status 7. -/
theorem run_pipeline_foreground_last_status_witness :
    (run_pipeline [⟨["x"], none, none, false⟩] false
        [WaitRes.exited 7]).status = statusOfWait (WaitRes.exited 7) :=
  run_pipeline_foreground_last_status _ _ _ (by decide) (by decide)
    (by decide)

/-- C2 counterexample: with `PATH` unset, resolution of a name without
`/` still searches the single empty entry produced by splitting the
empty string, and `os.path.join('', name)` is the bare name, so a name
that is executable relative to the current directory is found — the
claim's "searches no directories and returns None" is false. -/
theorem find_executable_unset_path_counterexample :
    find_executable (fun s => s == "prog") "prog" none = some "prog" := by
  decide

/-- C2 amended: for a program name not containing `/`, an unset `PATH`
is treated as the empty string, whose split yields one empty directory
entry; that entry is searched like any other, and joining it with the
name gives the bare name, so resolution returns the name itself exactly
when the filesystem reports it executable relative to the current
directory (and `none` otherwise). -/
theorem find_executable_unset_path_checks_cwd (execOk : String → Bool)
    (cmd : String) (h : cmd.data.contains '/' = false) :
    find_executable execOk cmd none =
      (if execOk cmd then some cmd else none) := by
  have hhead : cmd.data.head? ≠ some '/' := head_ne_slash h
  have hmem : '/' ∉ cmd.data := by simpa using h
  have hcond : ¬cmd.data.contains '/' = true := by
    intro hc
    simp at hc
    exact hmem hc
  unfold find_executable
  rw [if_neg hcond]
  show searchPath execOk cmd (pySplit ':' [] []) = _
  show searchPath execOk cmd [String.mk []] = _
  unfold searchPath
  have hjoin : pathJoin (String.mk []) cmd = cmd := by
    unfold pathJoin
    rw [if_neg hhead, if_pos rfl]
  rw [hjoin]
  by_cases he : execOk cmd = true
  · rw [if_pos he, if_pos he]
  · rw [if_neg he, if_neg he]
    rfl

/-- C2 witness: with `PATH` unset, a slash-free name that the
filesystem reports executable as a bare relative path resolves to
itself. -/
theorem find_executable_unset_path_checks_cwd_witness :
    find_executable (fun s => s == "cmd") "cmd" none =
      (if (fun s => s == "cmd") "cmd" then some "cmd" else none) :=
  find_executable_unset_path_checks_cwd (fun s => s == "cmd") "cmd"
    (by decide)

/-- C8: for the empty pipeline, `run_pipeline` returns status 0 under
both background and foreground flags, creating no pipes and forking no
children, whatever the wait outcomes would have been. -/
theorem run_pipeline_empty_pipeline (background : Bool)
    (waits : List WaitRes) :
    run_pipeline [] background waits = ⟨0, 0, 0⟩ :=
  rfl

/-- C10: the driver's builtin dispatch inspects only the stage count
and `args[0]`: for every parsed single-stage line whose first argument
is `exit` or `cd`, the builtin action is taken for either value of the
background flag, and the record's redirection fields do not influence
the action (no executor call, hence no file open, happens for it);
`cd`'s target is `args[1]` when present, else `HOME`, else `/`. -/
theorem builtin_dispatch_inspects_args_only (line : String)
    (background : Bool) (home : Option String) (c : Cmd)
    (hp : parse_pipeline line = [c]) :
    (c.args.head? = some "exit" →
      dispatchParsed (parse_pipeline line) background home =
        some Action.exitShell) ∧
    (c.args.head? = some "cd" →
      dispatchParsed (parse_pipeline line) background home =
        some (Action.cdTo (c.args.tail.head?.getD (home.getD "/")))) := by
  rw [hp]
  constructor
  · intro hx
    cases hargs : c.args with
    | nil => rw [hargs] at hx; exact Option.noConfusion hx
    | cons a0 rest =>
      rw [hargs] at hx
      have ha0 : a0 = "exit" := by simpa using hx
      simp [dispatchParsed, hargs, ha0]
  · intro hx
    cases hargs : c.args with
    | nil => rw [hargs] at hx; exact Option.noConfusion hx
    | cons a0 rest =>
      rw [hargs] at hx
      have ha0 : a0 = "cd" := by simpa using hx
      simp [dispatchParsed, hargs, ha0]

/-- C10 witness: the parsed line `exit > f` (with the background flag
set, as after stripping a trailing `&`) still dispatches to the `exit`
builtin, its redirection notwithstanding. -/
theorem builtin_dispatch_inspects_args_only_witness :
    dispatchParsed (parse_pipeline "exit > f") true none =
      some Action.exitShell :=
  (builtin_dispatch_inspects_args_only "exit > f" true none
      ⟨["exit"], none, some "f", false⟩ (by decide)).1 (by decide)

end Shell
